import Mathlib

/-!
# Verification of the developer-environment provisioning script (`env_dev.py`)

Shallow embedding of the source file `src/env_dev.py`.

The script mutates host OS state through privileged shell commands
(`subprocess.run(['sudo', ...], check=True)`) and direct Python file writes.
We model the host as an explicit `World` state:

* `fs` — the filesystem namespace, an association list from path to entry
  (directory, regular file with content, or symbolic link with target),
  mirroring the paths the script creates, removes and queries;
* `modes` / `owners` — the permission and ownership tables written by
  `chmod` / `chown` (for `chown -R` we record the ownership of the named
  path itself; no claim depends on ownership of children);
* `users` — the OS account namespace touched by `useradd`;
* `trace` — the ordered log of every attempted privileged command (with its
  success bit), every Python file write, and every progress message the
  script prints (messages are modelled as structured events);
* `ok` / `writeOk` — environment oracles deciding whether a privileged
  command (resp. a Python `open(...,'w')` + `write`) succeeds for reasons
  outside the modelled state (insufficient privilege, OS limits, ...).
  A command additionally fails when its modelled precondition is violated
  (e.g. `ln -s` onto an existing path, `useradd` for an existing user).

`check=True` calls raise `CalledProcessError` on failure; each function of
the script catches these at its own boundary and converts them to a
boolean, which is exactly how the embedding threads the `Bool` results.
-/

/-- A filesystem entry: directory, regular file (with content), or symlink. -/
inductive Entry where
  | dir : Entry
  | file (content : String) : Entry
  | symlink (target : String) : Entry
deriving DecidableEq, Repr

/-- The privileged commands issued by `env_dev.py` via `subprocess.run`.
Arguments are kept exactly as the argv strings of the source. -/
inductive Cmd where
  | mkdirp (path : String)
  | chown (owner path : String) (recursive : Bool)
  | chmod (mode path : String)
  | lns (target path : String)
  | useradd (name : String)
  | sshKeygen (ktype bits file passphrase : String)
  | touch (path : String)
  | rm (path : String)
  | cat (path : String)
deriving DecidableEq, Repr

/-- Observable events: attempted commands (with success bit), Python file
writes, and the progress messages the script prints (structured). -/
inductive Event where
  | cmd (c : Cmd) (ok : Bool)
  | pywrite (path content : String) (ok : Bool)
  | msgCreatingDev (dev : String)
  | msgUserResult (dev : String) (ok : Bool)
  | msgCreatingProject (p : String)
  | msgProjectResult (p : String) (ok : Bool)
  | msgSudoError (u : String)
  | msgSshError (u : String)
  | msgSharedError
  | msgUserError (u : String)
  | msgSshKeyHeader (u : String)
  | msgNoDevs
  | msgSummaryHeader
  | msgSummaryLine (u s : String)
deriving DecidableEq, Repr

/-- Association-list lookup (first binding wins, like a dict lookup). -/
def alookup {α : Type} : List (String × α) → String → Option α
  | [], _ => none
  | (k, v) :: rest, q => if k = q then some v else alookup rest q

/-- Association-list update: replaces the first binding of the key in
place, or appends a new binding at the end — the semantics of a Python
dict assignment (insertion order preserved, value overwritten). -/
def upsert {α : Type} : List (String × α) → String → α → List (String × α)
  | [], k, v => [(k, v)]
  | (k0, v0) :: rest, k, v =>
    if k0 = k then (k0, v) :: rest else (k0, v0) :: upsert rest k v

/-- Remove every binding of a key. -/
def adelete {α : Type} : List (String × α) → String → List (String × α)
  | [], _ => []
  | (k, v) :: rest, q => if k = q then adelete rest q else (k, v) :: adelete rest q

/-- Number of bindings of a key (used to express "no duplicate entry"). -/
def countKey {α : Type} : List (String × α) → String → Nat
  | [], _ => 0
  | (k, _) :: rest, q => (if k = q then 1 else 0) + countKey rest q

/-- The modelled host state. -/
structure World where
  ok : Cmd → Bool
  writeOk : String → Bool
  fs : List (String × Entry)
  modes : List (String × String)
  owners : List (String × String)
  users : List String
  trace : List Event

/-- Append a printed message to the trace. -/
def pushMsg (w : World) (e : Event) : World :=
  { w with trace := w.trace ++ [e] }

/-- Predicate for Python `Path(p).exists()` — true when something is at the path; a symbolic
link is followed (one level: every link this script creates points at a
plain directory). -/
def pathExists (fs : List (String × Entry)) (p : String) : Bool :=
  match alookup fs p with
  | none => false
  | some (Entry.symlink t) => (alookup fs t).isSome
  | some _ => true

/-- Effect and exit status of one privileged command, without logging.
The command succeeds when the environment oracle allows it and its
modelled precondition holds; the state is mutated only on success
(except `ssh-keygen`, which refuses to overwrite an existing key file,
and `ln -s`, which fails on an existing path — both report failure and
leave the state unchanged). -/
def applyCmd (w : World) (c : Cmd) : World × Bool :=
  if w.ok c then
    match c with
    | Cmd.mkdirp p =>
      match alookup w.fs p with
      | some Entry.dir => (w, true)
      | some _ => (w, false)
      | none => ({ w with fs := upsert w.fs p Entry.dir }, true)
    | Cmd.chown o p _ =>
      if (alookup w.fs p).isSome then ({ w with owners := upsert w.owners p o }, true)
      else (w, false)
    | Cmd.chmod m p =>
      if (alookup w.fs p).isSome then ({ w with modes := upsert w.modes p m }, true)
      else (w, false)
    | Cmd.lns t p =>
      match alookup w.fs p with
      | none => ({ w with fs := upsert w.fs p (Entry.symlink t) }, true)
      | some _ => (w, false)
    | Cmd.useradd u =>
      if u ∈ w.users then (w, false)
      else
        ({ w with users := w.users ++ [u],
                  fs := if (alookup w.fs ("/home/" ++ u)).isSome then w.fs
                        else upsert w.fs ("/home/" ++ u) Entry.dir }, true)
    | Cmd.sshKeygen _ _ f _ =>
      match alookup w.fs f with
      | some _ => (w, false)
      | none =>
        ({ w with fs := upsert (upsert w.fs f (Entry.file "private-key-material"))
                               (f ++ ".pub") (Entry.file "public-key-material") }, true)
    | Cmd.touch p =>
      if (alookup w.fs p).isSome then (w, true)
      else ({ w with fs := upsert w.fs p (Entry.file "") }, true)
    | Cmd.rm p =>
      if (alookup w.fs p).isSome then ({ w with fs := adelete w.fs p }, true)
      else (w, false)
    | Cmd.cat p => (w, (alookup w.fs p).isSome)
  else (w, false)

/-- Run one privileged command: apply its effect and log the attempt. -/
def runCmd (w : World) (c : Cmd) : World × Bool :=
  let r := applyCmd w c
  ({ r.1 with trace := r.1.trace ++ [Event.cmd c r.2] }, r.2)

/-- Run a sequence of `check=True` commands: abort at the first failure
(the raised `CalledProcessError` skips the rest of the `try` block). -/
def runChecked (w : World) : List Cmd → World × Bool
  | [] => (w, true)
  | c :: rest =>
    let r := runCmd w c
    if r.2 then runChecked r.1 rest else (r.1, false)

/-- Python `open(path, 'w')` + `write(content)` (truncating write);
fails when the oracle denies it or the path is a directory. -/
def pyWriteFile (w : World) (p content : String) : World × Bool :=
  if w.writeOk p then
    match alookup w.fs p with
    | some Entry.dir =>
      ({ w with trace := w.trace ++ [Event.pywrite p content false] }, false)
    | _ =>
      ({ w with fs := upsert w.fs p (Entry.file content),
                trace := w.trace ++ [Event.pywrite p content true] }, true)
  else ({ w with trace := w.trace ++ [Event.pywrite p content false] }, false)

/-- Function `configure_sudo(username)` — lines 7–17 of `env_dev.py`: write the
sudoers rule `{username} ALL=(ALL) NOPASSWD:ALL` to
`/etc/sudoers.d/{username}`, then `sudo chmod 440` it; on `IOError` or
`CalledProcessError` print an error and return `False`. -/
def configure_sudo (w : World) (username : String) : World × Bool :=
  let sudoers_file := "/etc/sudoers.d/" ++ username
  let r := pyWriteFile w sudoers_file (username ++ " ALL=(ALL) NOPASSWD:ALL")
  if r.2 then
    let r1 := runCmd r.1 (Cmd.chmod "440" sudoers_file)
    if r1.2 then (r1.1, true) else (pushMsg r1.1 (Event.msgSudoError username), false)
  else (pushMsg r.1 (Event.msgSudoError username), false)

/-- The nine `check=True` commands of `setup_ssh_keys` — lines 23–36 —
in source order. Note the passphrase argument: the source passes the
Python string literal `'""'`, i.e. the two-character string consisting
of two double-quote characters (no shell is involved that would strip
the quotes). -/
def sshCheckedCmds (username : String) : List Cmd :=
  [Cmd.mkdirp ("/home/" ++ username ++ "/.ssh"),
   Cmd.sshKeygen "rsa" "4096" ("/home/" ++ username ++ "/.ssh" ++ "/id_rsa") "\"\"",
   Cmd.chown (username ++ ":" ++ username) ("/home/" ++ username ++ "/.ssh") true,
   Cmd.chmod "700" ("/home/" ++ username ++ "/.ssh"),
   Cmd.chmod "600" ("/home/" ++ username ++ "/.ssh" ++ "/id_rsa"),
   Cmd.chmod "644" ("/home/" ++ username ++ "/.ssh" ++ "/id_rsa.pub"),
   Cmd.touch ("/home/" ++ username ++ "/.ssh" ++ "/authorized_keys"),
   Cmd.chmod "600" ("/home/" ++ username ++ "/.ssh" ++ "/authorized_keys"),
   Cmd.rm ("/home/" ++ username ++ "/.ssh" ++ "/id_rsa.pub")]

/-- Function `setup_ssh_keys(username)` — lines 19–43: run the nine checked
commands; if all succeed, print the private-key header and `sudo cat`
the private key — the `cat` on line 39 is the one `subprocess.run`
WITHOUT `check=True`, so its exit status is ignored — and return `True`;
a `CalledProcessError` from any checked command prints an error and
returns `False`. -/
def setup_ssh_keys (w : World) (username : String) : World × Bool :=
  let r := runChecked w (sshCheckedCmds username)
  if r.2 then
    let w1 := pushMsg r.1 (Event.msgSshKeyHeader username)
    let r1 := runCmd w1 (Cmd.cat ("/home/" ++ username ++ "/.ssh" ++ "/id_rsa"))
    (r1.1, true)
  else (pushMsg r.1 (Event.msgSshError username), false)

/-- The six root/public-directory commands of `create_shared_project` —
lines 49–58 — in source order. -/
def rootCmds (project_name : String) : List Cmd :=
  [Cmd.mkdirp ("/opt/" ++ project_name),
   Cmd.chown "root:root" ("/opt/" ++ project_name) false,
   Cmd.chmod "755" ("/opt/" ++ project_name),
   Cmd.mkdirp ("/opt/" ++ project_name ++ "/public"),
   Cmd.chown "root:root" ("/opt/" ++ project_name ++ "/public") false,
   Cmd.chmod "755" ("/opt/" ++ project_name ++ "/public")]

/-- The three checked commands creating one user's project directory —
lines 62–65. -/
def userDirCmds (project_name username : String) : List Cmd :=
  [Cmd.mkdirp ("/home/" ++ username ++ "/" ++ project_name),
   Cmd.chown (username ++ ":" ++ username) ("/home/" ++ username ++ "/" ++ project_name) false,
   Cmd.chmod "755" ("/home/" ++ username ++ "/" ++ project_name)]

/-- Loop body for one username — lines 61–73: create the user's project
directory; if no entry exists at `{user_project_dir}/public`, symlink it
to the shared public directory; then (whether or not the link was just
created) chown the link path to the user. All commands are `check=True`. -/
def linkUser (w : World) (project_name username : String) : World × Bool :=
  let r := runChecked w (userDirCmds project_name username)
  if r.2 then
    let r1 :=
      if pathExists r.1.fs ("/home/" ++ username ++ "/" ++ project_name ++ "/public") then
        (r.1, true)
      else
        runCmd r.1 (Cmd.lns ("/opt/" ++ project_name ++ "/public")
                            ("/home/" ++ username ++ "/" ++ project_name ++ "/public"))
    if r1.2 then
      runCmd r1.1 (Cmd.chown (username ++ ":" ++ username)
                             ("/home/" ++ username ++ "/" ++ project_name ++ "/public") false)
    else r1
  else r

/-- The `for username in usernames` loop of `create_shared_project`:
a `CalledProcessError` raised in any iteration propagates out of the
loop to the surrounding `try`, aborting the remaining usernames. -/
def linkUsersLoop (w : World) (project_name : String) : List String → World × Bool
  | [] => (w, true)
  | u :: rest =>
    let r := linkUser w project_name u
    if r.2 then linkUsersLoop r.1 project_name rest else (r.1, false)

/-- Function `create_shared_project(project_name, usernames)` — lines 45–78:
create the root project directory and the public subdirectory (chown and
chmod are issued regardless of whether the directories already existed),
then link every username; any `CalledProcessError` prints an error and
returns `False`. -/
def create_shared_project (w : World) (project_name : String)
    (usernames : List String) : World × Bool :=
  let r := runChecked w (rootCmds project_name)
  if r.2 then
    let r1 := linkUsersLoop r.1 project_name usernames
    if r1.2 then r1 else (pushMsg r1.1 Event.msgSharedError, false)
  else (pushMsg r.1 Event.msgSharedError, false)

/-- Function `create_dev_user(username)` — lines 80–91: `useradd -m -s /bin/bash`,
then `configure_sudo`, then `setup_ssh_keys`, returning `False` at the
first failing stage (the inner functions catch their own errors; the
`except` of `create_dev_user` is reached only by the `useradd` call). -/
def create_dev_user (w : World) (username : String) : World × Bool :=
  let r := runCmd w (Cmd.useradd username)
  if r.2 then
    let r1 := configure_sudo r.1 username
    if r1.2 then
      let r2 := setup_ssh_keys r1.1 username
      if r2.2 then (r2.1, true) else (r2.1, false)
    else (r1.1, false)
  else (pushMsg r.1 (Event.msgUserError username), false)

/-- The `for dev in dev_list` loop of `create_devs` — lines 96–100:
print the progress line, run `create_dev_user`, record
`results[dev] = "Success" / "Failed"` (a dict assignment: first
insertion fixes the position, a repeated key overwrites the value),
print the outcome line, move to the next developer unconditionally. -/
def dev_loop (w : World) (devs : List String)
    (results : List (String × String)) : World × List (String × String) :=
  match devs with
  | [] => (w, results)
  | dev :: rest =>
    let w0 := pushMsg w (Event.msgCreatingDev dev)
    let r := create_dev_user w0 dev
    let results1 := upsert results dev (if r.2 then "Success" else "Failed")
    let w1 := pushMsg r.1 (Event.msgUserResult dev r.2)
    dev_loop w1 rest results1

/-- Function `create_devs(dev_list, project_name=None)` — lines 93–109: process
every developer, then, when `project_name` is truthy (Python: present
and not the empty string), run `create_shared_project` over the full
`dev_list` and print its outcome; return the per-developer results
dict. -/
def create_devs (w : World) (dev_list : List String)
    (project_name : Option String) : World × List (String × String) :=
  let r := dev_loop w dev_list []
  match project_name with
  | none => r
  | some p =>
    if p = "" then r
    else
      let w1 := pushMsg r.1 (Event.msgCreatingProject p)
      let r1 := create_shared_project w1 p dev_list
      (pushMsg r1.1 (Event.msgProjectResult p r1.2), r.2)

/-- Function `main()` — lines 124–136 — modelled after the call to `load_config`
(the configuration file is an external collaborator; its parsed output,
the developer list and optional project name, is taken as input): when
the developer list is empty (Python falsy), print the no-op message and
return; otherwise run `create_devs` and print the summary. -/
def main_run (w : World) (devs : List String) (project : Option String) : World :=
  if devs.isEmpty then pushMsg w Event.msgNoDevs
  else
    let r := create_devs w devs project
    let w1 := pushMsg r.1 Event.msgSummaryHeader
    r.2.foldl (fun wa kv => pushMsg wa (Event.msgSummaryLine kv.1 kv.2)) w1

/-! ## Test environments -/

/-- A host on which every privileged command and file write succeeds,
starting from an empty modelled namespace. -/
def allOkWorld : World :=
  { ok := fun _ => true, writeOk := fun _ => true,
    fs := [], modes := [], owners := [], users := [], trace := [] }

/-- A host on which everything succeeds except `cat` (reading a file
back fails, e.g. the output channel is broken). -/
def catFailWorld : World :=
  { allOkWorld with ok := fun c => match c with | Cmd.cat _ => false | _ => true }

/-- A host on which `useradd alice` fails (e.g. the account already
exists at the OS level) and everything else succeeds. -/
def aliceFailWorld : World :=
  { allOkWorld with ok := fun c => if c = Cmd.useradd "alice" then false else true }

/-- A host on which every Python file write fails (the sudoers rule
cannot be written). -/
def sudoWriteFailWorld : World :=
  { allOkWorld with writeOk := fun _ => false }

/-- A host on which `ssh-keygen` fails and everything else succeeds. -/
def keygenFailWorld : World :=
  { allOkWorld with ok := fun c => match c with | Cmd.sshKeygen _ _ _ _ => false | _ => true }

/-- A host where the shared-project directories already exist. -/
def preExistingProjWorld : World :=
  { allOkWorld with fs := [("/opt/webapp", Entry.dir), ("/opt/webapp/public", Entry.dir)] }

/-! ## Basic lemmas about the state-transition layer -/

theorem applyCmd_trace (w : World) (c : Cmd) : (applyCmd w c).1.trace = w.trace := by
  unfold applyCmd
  repeat' split
  all_goals rfl

theorem applyCmd_ok (w : World) (c : Cmd) : (applyCmd w c).1.ok = w.ok := by
  unfold applyCmd
  repeat' split
  all_goals rfl

theorem applyCmd_writeOk (w : World) (c : Cmd) : (applyCmd w c).1.writeOk = w.writeOk := by
  unfold applyCmd
  repeat' split
  all_goals rfl

theorem runCmd_trace (w : World) (c : Cmd) :
    (runCmd w c).1.trace = w.trace ++ [Event.cmd c (runCmd w c).2] := by
  show (applyCmd w c).1.trace ++ _ = _
  rw [applyCmd_trace]
  rfl

theorem runCmd_ok (w : World) (c : Cmd) : (runCmd w c).1.ok = w.ok :=
  applyCmd_ok w c

theorem runCmd_writeOk (w : World) (c : Cmd) : (runCmd w c).1.writeOk = w.writeOk :=
  applyCmd_writeOk w c

theorem pyWriteFile_trace (w : World) (p content : String) :
    (pyWriteFile w p content).1.trace
      = w.trace ++ [Event.pywrite p content (pyWriteFile w p content).2] := by
  unfold pyWriteFile
  repeat' split
  all_goals rfl

theorem pushMsg_trace (w : World) (e : Event) : (pushMsg w e).trace = w.trace ++ [e] := rfl

theorem trace_comp {w1 w2 w3 : World} {t1 t2 : List Event}
    (h1 : w2.trace = w1.trace ++ t1) (h2 : w3.trace = w2.trace ++ t2) :
    w3.trace = w1.trace ++ (t1 ++ t2) := by
  rw [h2, h1, List.append_assoc]

/-! ## Association-list lemmas -/

@[simp]
theorem alookup_upsert_self {α : Type} (m : List (String × α)) (k : String) (v : α) :
    alookup (upsert m k v) k = some v := by
  induction m with
  | nil => simp [alookup, upsert]
  | cons kv rest ih =>
    by_cases h : kv.1 = k
    · simp [alookup, upsert, h]
    · simp [alookup, upsert, h, ih]

theorem alookup_upsert_ne {α : Type} (m : List (String × α)) (k q : String) (v : α)
    (h : q ≠ k) : alookup (upsert m k v) q = alookup m q := by
  induction m with
  | nil => simp [alookup, upsert, Ne.symm h]
  | cons kv rest ih =>
    by_cases h1 : kv.1 = k
    · simp [alookup, upsert, h1, Ne.symm h]
    · simp only [upsert, h1, if_false, alookup]
      by_cases h2 : kv.1 = q <;> simp [h2, ih]

theorem countKey_upsert_bound {α : Type} (m : List (String × α)) (k q : String) (v : α)
    (h : (alookup m k).isSome) : countKey (upsert m k v) q = countKey m q := by
  induction m with
  | nil => simp [alookup] at h
  | cons kv rest ih =>
    by_cases h1 : kv.1 = k
    · simp [upsert, countKey, h1]
    · simp only [alookup, h1, if_false] at h
      simp [upsert, countKey, h1, ih h]

theorem countKey_upsert_free {α : Type} (m : List (String × α)) (k q : String) (v : α)
    (h : alookup m k = none) :
    countKey (upsert m k v) q = countKey m q + (if k = q then 1 else 0) := by
  induction m with
  | nil => simp [countKey, upsert, Nat.add_comm]
  | cons kv rest ih =>
    by_cases h1 : kv.1 = k
    · simp [alookup, h1] at h
    · simp only [alookup, h1, if_false] at h
      simp only [upsert, h1, if_false, countKey, ih h]
      omega

theorem countKey_adelete {α : Type} (m : List (String × α)) (q : String) :
    countKey (adelete m q) q = 0 := by
  induction m with
  | nil => rfl
  | cons kv rest ih =>
    by_cases h : kv.1 = q <;> simp [adelete, countKey, h, ih]

theorem alookup_isSome_of_countKey {α : Type} (m : List (String × α)) (q : String)
    (h : 0 < countKey m q) : (alookup m q).isSome := by
  induction m with
  | nil => simp [countKey] at h
  | cons kv rest ih =>
    by_cases h1 : kv.1 = q
    · simp [alookup, h1]
    · simp only [countKey, h1, if_false, Nat.zero_add] at h
      simp [alookup, h1, ih h]

/-! ## Trace extraction and classification -/

/-- Identifiers announced by the per-developer progress line
("Creating environment for developer: ..."), in print order. One such
line is printed immediately before each `create_dev_user` invocation. -/
def creatingDevs (es : List Event) : List String :=
  es.filterMap fun e =>
    match e with
    | Event.msgCreatingDev d => some d
    | _ => none

/-- Outcome bits of the per-developer result lines printed for a given
identifier ("Successfully/Failed to create user ..."), in print order. -/
def userResultsFor (d : String) (es : List Event) : List Bool :=
  es.filterMap fun e =>
    match e with
    | Event.msgUserResult x b => if x = d then some b else none
    | _ => none

/-- Shared-project outcome lines, in print order. -/
def projectResults (es : List Event) : List (String × Bool) :=
  es.filterMap fun e =>
    match e with
    | Event.msgProjectResult p b => some (p, b)
    | _ => none

/-- All attempted privileged commands, with their success bits. -/
def cmdEvents (es : List Event) : List (Cmd × Bool) :=
  es.filterMap fun e =>
    match e with
    | Event.cmd c b => some (c, b)
    | _ => none

/-- All attempted `ssh-keygen` invocations. -/
def keygens (es : List Event) : List Cmd :=
  es.filterMap fun e =>
    match e with
    | Event.cmd (Cmd.sshKeygen t b f n) _ => some (Cmd.sshKeygen t b f n)
    | _ => none

/-- Trace fragments containing none of the orchestrator-level messages
(`create_devs` is the only function printing those four messages). -/
def noOrchMsgs (es : List Event) : Bool :=
  es.all fun e =>
    match e with
    | Event.msgCreatingDev _ => false
    | Event.msgUserResult _ _ => false
    | Event.msgCreatingProject _ => false
    | Event.msgProjectResult _ _ => false
    | _ => true

theorem creatingDevs_append (s t : List Event) :
    creatingDevs (s ++ t) = creatingDevs s ++ creatingDevs t :=
  List.filterMap_append _ _ _

theorem userResultsFor_append (d : String) (s t : List Event) :
    userResultsFor d (s ++ t) = userResultsFor d s ++ userResultsFor d t :=
  List.filterMap_append _ _ _

theorem projectResults_append (s t : List Event) :
    projectResults (s ++ t) = projectResults s ++ projectResults t :=
  List.filterMap_append _ _ _

theorem cmdEvents_append (s t : List Event) :
    cmdEvents (s ++ t) = cmdEvents s ++ cmdEvents t :=
  List.filterMap_append _ _ _

theorem keygens_append (s t : List Event) :
    keygens (s ++ t) = keygens s ++ keygens t :=
  List.filterMap_append _ _ _

theorem noOrchMsgs_append (s t : List Event) :
    noOrchMsgs (s ++ t) = (noOrchMsgs s && noOrchMsgs t) :=
  List.all_append

theorem noOrchMsgs_extract (t : List Event) (h : noOrchMsgs t = true) :
    creatingDevs t = [] ∧ (∀ d, userResultsFor d t = []) ∧ projectResults t = [] := by
  induction t with
  | nil => exact ⟨rfl, fun _ => rfl, rfl⟩
  | cons e rest ih =>
    simp only [noOrchMsgs, List.all_cons, Bool.and_eq_true] at h
    obtain ⟨he, hrest⟩ := h
    obtain ⟨h1, h2, h3⟩ := ih hrest
    cases e <;> simp_all [creatingDevs, userResultsFor, projectResults, noOrchMsgs]

@[simp]
theorem noOrchMsgs_nil : noOrchMsgs [] = true := rfl

@[simp]
theorem noOrchMsgs_cons_sshHeader (u : String) (t : List Event) :
    noOrchMsgs (Event.msgSshKeyHeader u :: t) = noOrchMsgs t := by
  simp [noOrchMsgs, List.all_cons]

@[simp]
theorem noOrchMsgs_cons_sshError (u : String) (t : List Event) :
    noOrchMsgs (Event.msgSshError u :: t) = noOrchMsgs t := by
  simp [noOrchMsgs, List.all_cons]

@[simp]
theorem noOrchMsgs_cons_sharedError (t : List Event) :
    noOrchMsgs (Event.msgSharedError :: t) = noOrchMsgs t := by
  simp [noOrchMsgs, List.all_cons]

@[simp]
theorem noOrchMsgs_cons_userError (u : String) (t : List Event) :
    noOrchMsgs (Event.msgUserError u :: t) = noOrchMsgs t := by
  simp [noOrchMsgs, List.all_cons]

/-! ## Trace-extension lemmas: each stage appends to the trace and never
emits an orchestrator-level message -/

theorem runCmd_ext (w : World) (c : Cmd) :
    ∃ t, (runCmd w c).1.trace = w.trace ++ t ∧ noOrchMsgs t = true :=
  ⟨[Event.cmd c (runCmd w c).2], runCmd_trace w c, rfl⟩

theorem pushMsg_ext (w : World) (e : Event)
    (h : noOrchMsgs [e] = true) :
    ∃ t, (pushMsg w e).trace = w.trace ++ t ∧ noOrchMsgs t = true :=
  ⟨[e], rfl, h⟩

theorem runChecked_ext (cs : List Cmd) (w : World) :
    ∃ t, (runChecked w cs).1.trace = w.trace ++ t ∧ noOrchMsgs t = true := by
  induction cs generalizing w with
  | nil => exact ⟨[], by simp [runChecked], rfl⟩
  | cons c rest ih =>
    obtain ⟨t1, h1, hn1⟩ := runCmd_ext w c
    by_cases hb : (runCmd w c).2 = true
    · obtain ⟨t2, h2, hn2⟩ := ih (runCmd w c).1
      refine ⟨t1 ++ t2, ?_, by simp [noOrchMsgs_append, hn1, hn2]⟩
      have : runChecked w (c :: rest) = runChecked (runCmd w c).1 rest := by
        simp [runChecked, hb]
      rw [this]
      exact trace_comp h1 h2
    · have : runChecked w (c :: rest) = ((runCmd w c).1, false) := by
        simp [runChecked, hb]
      exact ⟨t1, by rw [this]; exact h1, hn1⟩

theorem pyWriteFile_ext (w : World) (p content : String) :
    ∃ t, (pyWriteFile w p content).1.trace = w.trace ++ t ∧ noOrchMsgs t = true :=
  ⟨[Event.pywrite p content (pyWriteFile w p content).2], pyWriteFile_trace w p content, rfl⟩

theorem configure_sudo_ext (w : World) (u : String) :
    ∃ t, (configure_sudo w u).1.trace = w.trace ++ t ∧ noOrchMsgs t = true
      ∧ keygens t = [] := by
  have hP := pyWriteFile_trace w ("/etc/sudoers.d/" ++ u) (u ++ " ALL=(ALL) NOPASSWD:ALL")
  by_cases hb : (pyWriteFile w ("/etc/sudoers.d/" ++ u) (u ++ " ALL=(ALL) NOPASSWD:ALL")).2 = true
  · have hC := runCmd_trace (pyWriteFile w ("/etc/sudoers.d/" ++ u)
      (u ++ " ALL=(ALL) NOPASSWD:ALL")).1 (Cmd.chmod "440" ("/etc/sudoers.d/" ++ u))
    by_cases hc : (runCmd (pyWriteFile w ("/etc/sudoers.d/" ++ u)
        (u ++ " ALL=(ALL) NOPASSWD:ALL")).1 (Cmd.chmod "440" ("/etc/sudoers.d/" ++ u))).2 = true
    · refine ⟨[Event.pywrite ("/etc/sudoers.d/" ++ u) (u ++ " ALL=(ALL) NOPASSWD:ALL") true,
               Event.cmd (Cmd.chmod "440" ("/etc/sudoers.d/" ++ u)) true], ?_, rfl, rfl⟩
      simp only [configure_sudo, hb, if_true, hc]
      rw [hC, hP, hb, hc]
      simp
    · refine ⟨[Event.pywrite ("/etc/sudoers.d/" ++ u) (u ++ " ALL=(ALL) NOPASSWD:ALL") true,
               Event.cmd (Cmd.chmod "440" ("/etc/sudoers.d/" ++ u)) false,
               Event.msgSudoError u], ?_, rfl, rfl⟩
      simp only [configure_sudo, hb, if_true, hc, if_false, Bool.false_eq_true, pushMsg]
      rw [hC, hP, hb]
      simp [Bool.eq_false_iff.mpr hc]
  · refine ⟨[Event.pywrite ("/etc/sudoers.d/" ++ u) (u ++ " ALL=(ALL) NOPASSWD:ALL") false,
             Event.msgSudoError u], ?_, rfl, rfl⟩
    simp only [configure_sudo, hb, if_false, Bool.false_eq_true, pushMsg]
    rw [hP]
    simp [Bool.eq_false_iff.mpr hb]

theorem setup_ssh_keys_ext (w : World) (u : String) :
    ∃ t, (setup_ssh_keys w u).1.trace = w.trace ++ t ∧ noOrchMsgs t = true := by
  obtain ⟨t1, h1, hn1⟩ := runChecked_ext (sshCheckedCmds u) w
  by_cases hb : (runChecked w (sshCheckedCmds u)).2 = true
  · obtain ⟨t2, h2, hn2⟩ := runCmd_ext
      (pushMsg (runChecked w (sshCheckedCmds u)).1 (Event.msgSshKeyHeader u))
      (Cmd.cat ("/home/" ++ u ++ "/.ssh" ++ "/id_rsa"))
    refine ⟨t1 ++ ([Event.msgSshKeyHeader u] ++ t2), ?_,
      by simp [noOrchMsgs_append, hn1, hn2]⟩
    have hs : setup_ssh_keys w u
        = ((runCmd (pushMsg (runChecked w (sshCheckedCmds u)).1 (Event.msgSshKeyHeader u))
             (Cmd.cat ("/home/" ++ u ++ "/.ssh" ++ "/id_rsa"))).1, true) := by
      simp [setup_ssh_keys, hb]
    rw [hs]
    exact trace_comp h1 (trace_comp (pushMsg_trace _ _) h2)
  · refine ⟨t1 ++ [Event.msgSshError u], ?_, by simp [noOrchMsgs_append, hn1]⟩
    have hs : setup_ssh_keys w u
        = (pushMsg (runChecked w (sshCheckedCmds u)).1 (Event.msgSshError u), false) := by
      simp [setup_ssh_keys, hb]
    rw [hs]
    exact trace_comp h1 (pushMsg_trace _ _)

theorem linkUser_ext (w : World) (p u : String) :
    ∃ t, (linkUser w p u).1.trace = w.trace ++ t ∧ noOrchMsgs t = true := by
  obtain ⟨t1, h1, hn1⟩ := runChecked_ext (userDirCmds p u) w
  by_cases hb : (runChecked w (userDirCmds p u)).2 = true
  · by_cases hx : pathExists (runChecked w (userDirCmds p u)).1.fs
        ("/home/" ++ u ++ "/" ++ p ++ "/public") = true
    · by_cases hc : True
      · obtain ⟨t2, h2, hn2⟩ := runCmd_ext (runChecked w (userDirCmds p u)).1
          (Cmd.chown (u ++ ":" ++ u) ("/home/" ++ u ++ "/" ++ p ++ "/public") false)
        refine ⟨t1 ++ t2, ?_, by simp [noOrchMsgs_append, hn1, hn2]⟩
        have hs : linkUser w p u
            = runCmd (runChecked w (userDirCmds p u)).1
                (Cmd.chown (u ++ ":" ++ u) ("/home/" ++ u ++ "/" ++ p ++ "/public") false) := by
          simp [linkUser, hb, hx]
        rw [hs]
        exact trace_comp h1 h2
      · exact absurd trivial hc
    · obtain ⟨t2, h2, hn2⟩ := runCmd_ext (runChecked w (userDirCmds p u)).1
        (Cmd.lns ("/opt/" ++ p ++ "/public") ("/home/" ++ u ++ "/" ++ p ++ "/public"))
      by_cases hl : (runCmd (runChecked w (userDirCmds p u)).1
          (Cmd.lns ("/opt/" ++ p ++ "/public") ("/home/" ++ u ++ "/" ++ p ++ "/public"))).2 = true
      · obtain ⟨t3, h3, hn3⟩ := runCmd_ext (runCmd (runChecked w (userDirCmds p u)).1
            (Cmd.lns ("/opt/" ++ p ++ "/public") ("/home/" ++ u ++ "/" ++ p ++ "/public"))).1
          (Cmd.chown (u ++ ":" ++ u) ("/home/" ++ u ++ "/" ++ p ++ "/public") false)
        refine ⟨t1 ++ (t2 ++ t3), ?_, by simp [noOrchMsgs_append, hn1, hn2, hn3]⟩
        have hs : linkUser w p u
            = runCmd (runCmd (runChecked w (userDirCmds p u)).1
                (Cmd.lns ("/opt/" ++ p ++ "/public") ("/home/" ++ u ++ "/" ++ p ++ "/public"))).1
                (Cmd.chown (u ++ ":" ++ u) ("/home/" ++ u ++ "/" ++ p ++ "/public") false) := by
          simp [linkUser, hb, hx, hl]
        rw [hs]
        exact trace_comp h1 (trace_comp h2 h3)
      · refine ⟨t1 ++ t2, ?_, by simp [noOrchMsgs_append, hn1, hn2]⟩
        have hs : linkUser w p u
            = runCmd (runChecked w (userDirCmds p u)).1
                (Cmd.lns ("/opt/" ++ p ++ "/public") ("/home/" ++ u ++ "/" ++ p ++ "/public")) := by
          simp [linkUser, hb, hx, hl]
        rw [hs]
        exact trace_comp h1 h2
  · refine ⟨t1, ?_, hn1⟩
    have hs : linkUser w p u = runChecked w (userDirCmds p u) := by
      simp [linkUser, hb]
    rw [hs]
    exact h1

theorem linkUsersLoop_ext (us : List String) (w : World) (p : String) :
    ∃ t, (linkUsersLoop w p us).1.trace = w.trace ++ t ∧ noOrchMsgs t = true := by
  induction us generalizing w with
  | nil => exact ⟨[], by simp [linkUsersLoop], rfl⟩
  | cons u rest ih =>
    obtain ⟨t1, h1, hn1⟩ := linkUser_ext w p u
    by_cases hb : (linkUser w p u).2 = true
    · obtain ⟨t2, h2, hn2⟩ := ih (linkUser w p u).1
      refine ⟨t1 ++ t2, ?_, by simp [noOrchMsgs_append, hn1, hn2]⟩
      have hs : linkUsersLoop w p (u :: rest) = linkUsersLoop (linkUser w p u).1 p rest := by
        simp [linkUsersLoop, hb]
      rw [hs]
      exact trace_comp h1 h2
    · have hs : linkUsersLoop w p (u :: rest) = ((linkUser w p u).1, false) := by
        simp [linkUsersLoop, hb]
      exact ⟨t1, by rw [hs]; exact h1, hn1⟩

theorem create_shared_project_ext (w : World) (p : String) (us : List String) :
    ∃ t, (create_shared_project w p us).1.trace = w.trace ++ t ∧ noOrchMsgs t = true := by
  obtain ⟨t1, h1, hn1⟩ := runChecked_ext (rootCmds p) w
  by_cases hb : (runChecked w (rootCmds p)).2 = true
  · obtain ⟨t2, h2, hn2⟩ := linkUsersLoop_ext us (runChecked w (rootCmds p)).1 p
    by_cases hl : (linkUsersLoop (runChecked w (rootCmds p)).1 p us).2 = true
    · refine ⟨t1 ++ t2, ?_, by simp [noOrchMsgs_append, hn1, hn2]⟩
      have hs : create_shared_project w p us = linkUsersLoop (runChecked w (rootCmds p)).1 p us := by
        simp [create_shared_project, hb, hl]
      rw [hs]
      exact trace_comp h1 h2
    · refine ⟨t1 ++ (t2 ++ [Event.msgSharedError]), ?_,
        by simp [noOrchMsgs_append, hn1, hn2]⟩
      have hs : create_shared_project w p us
          = (pushMsg (linkUsersLoop (runChecked w (rootCmds p)).1 p us).1 Event.msgSharedError,
             false) := by
        simp [create_shared_project, hb, hl]
      rw [hs]
      exact trace_comp h1 (trace_comp h2 (pushMsg_trace _ _))
  · refine ⟨t1 ++ [Event.msgSharedError], ?_, by simp [noOrchMsgs_append, hn1]⟩
    have hs : create_shared_project w p us
        = (pushMsg (runChecked w (rootCmds p)).1 Event.msgSharedError, false) := by
      simp [create_shared_project, hb]
    rw [hs]
    exact trace_comp h1 (pushMsg_trace _ _)

theorem create_dev_user_ext (w : World) (u : String) :
    ∃ t, (create_dev_user w u).1.trace = w.trace ++ t ∧ noOrchMsgs t = true := by
  obtain ⟨t1, h1, hn1⟩ := runCmd_ext w (Cmd.useradd u)
  by_cases hb : (runCmd w (Cmd.useradd u)).2 = true
  · obtain ⟨t2, h2, hn2, _⟩ := configure_sudo_ext (runCmd w (Cmd.useradd u)).1 u
    by_cases hc : (configure_sudo (runCmd w (Cmd.useradd u)).1 u).2 = true
    · obtain ⟨t3, h3, hn3⟩ := setup_ssh_keys_ext (configure_sudo (runCmd w (Cmd.useradd u)).1 u).1 u
      refine ⟨t1 ++ (t2 ++ t3), ?_, by simp [noOrchMsgs_append, hn1, hn2, hn3]⟩
      have hs : (create_dev_user w u).1
          = (setup_ssh_keys (configure_sudo (runCmd w (Cmd.useradd u)).1 u).1 u).1 := by
        by_cases hd : (setup_ssh_keys (configure_sudo (runCmd w (Cmd.useradd u)).1 u).1 u).2 = true <;>
          simp [create_dev_user, hb, hc, hd]
      rw [hs]
      exact trace_comp h1 (trace_comp h2 h3)
    · refine ⟨t1 ++ t2, ?_, by simp [noOrchMsgs_append, hn1, hn2]⟩
      have hs : (create_dev_user w u).1 = (configure_sudo (runCmd w (Cmd.useradd u)).1 u).1 := by
        simp [create_dev_user, hb, hc]
      rw [hs]
      exact trace_comp h1 h2
  · refine ⟨t1 ++ [Event.msgUserError u], ?_, by simp [noOrchMsgs_append, hn1]⟩
    have hs : (create_dev_user w u).1 = pushMsg (runCmd w (Cmd.useradd u)).1 (Event.msgUserError u) := by
      simp [create_dev_user, hb]
    rw [hs]
    exact trace_comp h1 (pushMsg_trace _ _)

/-! ## Lemmas about the orchestrator loop -/

@[simp]
theorem creatingDevs_nil : creatingDevs [] = [] := rfl

@[simp]
theorem creatingDevs_creating (d : String) : creatingDevs [Event.msgCreatingDev d] = [d] := rfl

@[simp]
theorem creatingDevs_userResult (d : String) (b : Bool) :
    creatingDevs [Event.msgUserResult d b] = [] := rfl

@[simp]
theorem creatingDevs_creatingProject (p : String) :
    creatingDevs [Event.msgCreatingProject p] = [] := rfl

@[simp]
theorem creatingDevs_projectResult (p : String) (b : Bool) :
    creatingDevs [Event.msgProjectResult p b] = [] := rfl

@[simp]
theorem userResultsFor_nil (q : String) : userResultsFor q [] = [] := rfl

@[simp]
theorem userResultsFor_creating (q d : String) :
    userResultsFor q [Event.msgCreatingDev d] = [] := rfl

theorem userResultsFor_userResult (q d : String) (b : Bool) :
    userResultsFor q [Event.msgUserResult d b] = if d = q then [b] else [] := by
  by_cases h : d = q <;> simp [userResultsFor, h]

@[simp]
theorem userResultsFor_creatingProject (q p : String) :
    userResultsFor q [Event.msgCreatingProject p] = [] := rfl

@[simp]
theorem userResultsFor_projectResult (q p : String) (b : Bool) :
    userResultsFor q [Event.msgProjectResult p b] = [] := rfl

@[simp]
theorem creatingDevs_cons_creating (d : String) (t : List Event) :
    creatingDevs (Event.msgCreatingDev d :: t) = d :: creatingDevs t := by
  simp [creatingDevs, List.filterMap_cons]

@[simp]
theorem creatingDevs_cons_userResult (d : String) (b : Bool) (t : List Event) :
    creatingDevs (Event.msgUserResult d b :: t) = creatingDevs t := by
  simp [creatingDevs, List.filterMap_cons]

@[simp]
theorem userResultsFor_cons_creating (q d : String) (t : List Event) :
    userResultsFor q (Event.msgCreatingDev d :: t) = userResultsFor q t := by
  simp [userResultsFor, List.filterMap_cons]

theorem userResultsFor_cons_userResult (q d : String) (b : Bool) (t : List Event) :
    userResultsFor q (Event.msgUserResult d b :: t)
      = (if d = q then [b] else []) ++ userResultsFor q t := by
  by_cases h : d = q <;> simp [userResultsFor, List.filterMap_cons, h]

/-- One unfolding step of the `create_devs` loop. -/
theorem dev_loop_cons (w : World) (dev : String) (rest : List String)
    (results : List (String × String)) :
    dev_loop w (dev :: rest) results
      = dev_loop
          (pushMsg (create_dev_user (pushMsg w (Event.msgCreatingDev dev)) dev).1
            (Event.msgUserResult dev
              (create_dev_user (pushMsg w (Event.msgCreatingDev dev)) dev).2))
          rest
          (upsert results dev
            (if (create_dev_user (pushMsg w (Event.msgCreatingDev dev)) dev).2
             then "Success" else "Failed")) := rfl

/-- The loop announces exactly the input identifiers, in input order:
one "Creating environment for developer" line — and hence one
`create_dev_user` invocation — per occurrence. -/
theorem dev_loop_creatingDevs (devs : List String) (w : World)
    (results : List (String × String)) :
    creatingDevs ((dev_loop w devs results).1.trace) = creatingDevs w.trace ++ devs := by
  induction devs generalizing w results with
  | nil => simp [dev_loop]
  | cons dev rest ih =>
    rw [dev_loop_cons, ih]
    obtain ⟨t, ht, hn⟩ := create_dev_user_ext (pushMsg w (Event.msgCreatingDev dev)) dev
    obtain ⟨hcd, _, _⟩ := noOrchMsgs_extract t hn
    rw [pushMsg_trace, ht, pushMsg_trace]
    simp [creatingDevs_append, hcd]


/-- Developers not in the remaining list keep their recorded outcome. -/
theorem dev_loop_results_notmem (devs : List String) (w : World)
    (results : List (String × String)) (d : String) (h : d ∉ devs) :
    alookup ((dev_loop w devs results).2) d = alookup results d := by
  induction devs generalizing w results with
  | nil => rfl
  | cons dev rest ih =>
    rw [dev_loop_cons]
    rw [ih _ _ (fun hmem => h (List.mem_cons_of_mem _ hmem))]
    exact alookup_upsert_ne _ _ _ _ (fun hq => h (hq ▸ List.mem_cons_self dev rest))

/-- Developers not in the remaining list get no further outcome lines. -/
theorem dev_loop_userResults_notmem (devs : List String) (w : World)
    (results : List (String × String)) (d : String) (h : d ∉ devs) :
    userResultsFor d ((dev_loop w devs results).1.trace) = userResultsFor d w.trace := by
  induction devs generalizing w results with
  | nil => rfl
  | cons dev rest ih =>
    rw [dev_loop_cons]
    rw [ih _ _ (fun hmem => h (List.mem_cons_of_mem _ hmem))]
    obtain ⟨t, ht, hn⟩ := create_dev_user_ext (pushMsg w (Event.msgCreatingDev dev)) dev
    obtain ⟨_, hur, _⟩ := noOrchMsgs_extract t hn
    rw [pushMsg_trace, ht, pushMsg_trace]
    have hne : dev ≠ d := fun hq => h (hq ▸ List.mem_cons_self dev rest)
    simp [userResultsFor_append, userResultsFor_cons_userResult, hur, hne]

/-- Main loop lemma: a processed developer has an outcome line for each
occurrence and its recorded outcome is the outcome of the last
occurrence processed. -/
theorem dev_loop_results_mem (devs : List String) (w : World)
    (results : List (String × String)) (d : String) (h : d ∈ devs) :
    ∃ bs b, userResultsFor d ((dev_loop w devs results).1.trace)
              = userResultsFor d w.trace ++ (bs ++ [b])
      ∧ alookup ((dev_loop w devs results).2) d
          = some (if b then "Success" else "Failed") := by
  induction devs generalizing w results with
  | nil => cases h
  | cons dev rest ih =>
    rw [dev_loop_cons]
    obtain ⟨t, ht, hn⟩ := create_dev_user_ext (pushMsg w (Event.msgCreatingDev dev)) dev
    obtain ⟨_, hur, _⟩ := noOrchMsgs_extract t hn
    by_cases hr : d ∈ rest
    · obtain ⟨bs, b, hb1, hb2⟩ := ih _ _ hr
      refine ⟨(if dev = d
          then [(create_dev_user (pushMsg w (Event.msgCreatingDev dev)) dev).2] else []) ++ bs,
        b, ?_, hb2⟩
      rw [hb1, pushMsg_trace, ht, pushMsg_trace]
      simp [userResultsFor_append, userResultsFor_cons_userResult, hur]
    · have hd : dev = d := by
        rcases List.mem_cons.mp h with h1 | h1
        · exact h1.symm
        · exact absurd h1 hr
      subst hd
      refine ⟨[], (create_dev_user (pushMsg w (Event.msgCreatingDev dev)) dev).2, ?_, ?_⟩
      · rw [dev_loop_userResults_notmem rest _ _ _ hr]
        rw [pushMsg_trace, ht, pushMsg_trace]
        simp [userResultsFor_append, userResultsFor_cons_userResult, hur]
      · rw [dev_loop_results_notmem rest _ _ _ hr]
        exact alookup_upsert_self _ _ _

@[simp]
theorem creatingDevs_cons_creatingProject (p : String) (t : List Event) :
    creatingDevs (Event.msgCreatingProject p :: t) = creatingDevs t := by
  simp [creatingDevs, List.filterMap_cons]

@[simp]
theorem creatingDevs_cons_projectResult (p : String) (b : Bool) (t : List Event) :
    creatingDevs (Event.msgProjectResult p b :: t) = creatingDevs t := by
  simp [creatingDevs, List.filterMap_cons]

@[simp]
theorem userResultsFor_cons_creatingProject (q p : String) (t : List Event) :
    userResultsFor q (Event.msgCreatingProject p :: t) = userResultsFor q t := by
  simp [userResultsFor, List.filterMap_cons]

@[simp]
theorem userResultsFor_cons_projectResult (q p : String) (b : Bool) (t : List Event) :
    userResultsFor q (Event.msgProjectResult p b :: t) = userResultsFor q t := by
  simp [userResultsFor, List.filterMap_cons]

@[simp]
theorem projectResults_nil : projectResults [] = [] := rfl

@[simp]
theorem projectResults_cons_projectResult (p : String) (b : Bool) (t : List Event) :
    projectResults (Event.msgProjectResult p b :: t) = (p, b) :: projectResults t := by
  simp [projectResults, List.filterMap_cons]

@[simp]
theorem projectResults_cons_creatingProject (p : String) (t : List Event) :
    projectResults (Event.msgCreatingProject p :: t) = projectResults t := by
  simp [projectResults, List.filterMap_cons]

@[simp]
theorem projectResults_cons_creating (d : String) (t : List Event) :
    projectResults (Event.msgCreatingDev d :: t) = projectResults t := by
  simp [projectResults, List.filterMap_cons]

@[simp]
theorem projectResults_cons_userResult (d : String) (b : Bool) (t : List Event) :
    projectResults (Event.msgUserResult d b :: t) = projectResults t := by
  simp [projectResults, List.filterMap_cons]

/-- A recorded outcome exists exactly for processed (or pre-recorded)
identifiers. -/
theorem dev_loop_isSome (devs : List String) (w : World)
    (results : List (String × String)) (d : String) :
    (alookup ((dev_loop w devs results).2) d).isSome
      ↔ d ∈ devs ∨ (alookup results d).isSome := by
  induction devs generalizing w results with
  | nil => simp [dev_loop]
  | cons dev rest ih =>
    rw [dev_loop_cons, ih]
    by_cases hd : d = dev
    · subst hd
      simp [alookup_upsert_self, List.mem_cons]
    · rw [alookup_upsert_ne _ _ _ _ hd]
      simp [List.mem_cons, hd]

/-- The results dict keeps at most one entry per key: the loop preserves
the "each key bound at most once" shape of a dict built by assignment. -/
theorem dev_loop_countKey (devs : List String) (w : World)
    (results : List (String × String)) (d : String)
    (h : countKey results d = if (alookup results d).isSome then 1 else 0) :
    countKey ((dev_loop w devs results).2) d
      = if (alookup ((dev_loop w devs results).2) d).isSome then 1 else 0 := by
  induction devs generalizing w results with
  | nil => exact h
  | cons dev rest ih =>
    rw [dev_loop_cons]
    apply ih
    by_cases hbound : (alookup results dev).isSome
    · rw [countKey_upsert_bound _ _ _ _ hbound]
      by_cases hd : d = dev
      · subst hd
        simp only [alookup_upsert_self, Option.isSome_some, if_true]
        rw [h, if_pos hbound]
      · rw [alookup_upsert_ne _ _ _ _ hd]
        exact h
    · rw [Bool.not_eq_true, Option.not_isSome, Option.isNone_iff_eq_none] at hbound
      rw [countKey_upsert_free _ _ _ _ hbound]
      by_cases hd : d = dev
      · subst hd
        simp only [alookup_upsert_self, Option.isSome_some, if_true, if_pos rfl]
        rw [h, hbound]
        simp
      · rw [alookup_upsert_ne _ _ _ _ hd]
        rw [if_neg (fun hq => hd hq.symm), h]
        simp

/-- On duplicate-free input each processed developer has exactly one
outcome line, and the recorded outcome is that line's outcome. -/
theorem dev_loop_results_nodup (devs : List String) (w : World)
    (results : List (String × String)) (d : String)
    (hnd : devs.Nodup) (h : d ∈ devs) :
    ∃ b, userResultsFor d ((dev_loop w devs results).1.trace)
           = userResultsFor d w.trace ++ [b]
      ∧ alookup ((dev_loop w devs results).2) d
          = some (if b then "Success" else "Failed") := by
  induction devs generalizing w results with
  | nil => cases h
  | cons dev rest ih =>
    obtain ⟨hdev, hrest⟩ := List.nodup_cons.mp hnd
    rw [dev_loop_cons]
    obtain ⟨t, ht, hn⟩ := create_dev_user_ext (pushMsg w (Event.msgCreatingDev dev)) dev
    obtain ⟨_, hur, _⟩ := noOrchMsgs_extract t hn
    by_cases hd : d = dev
    · subst hd
      refine ⟨(create_dev_user (pushMsg w (Event.msgCreatingDev d)) d).2, ?_, ?_⟩
      · rw [dev_loop_userResults_notmem rest _ _ _ hdev]
        rw [pushMsg_trace, ht, pushMsg_trace]
        simp [userResultsFor_append, userResultsFor_cons_userResult, hur]
      · rw [dev_loop_results_notmem rest _ _ _ hdev]
        exact alookup_upsert_self _ _ _
    · have hmem : d ∈ rest := by
        rcases List.mem_cons.mp h with h1 | h1
        · exact absurd h1 hd
        · exact h1
      obtain ⟨b, hb1, hb2⟩ := ih _ _ hrest hmem
      refine ⟨b, ?_, hb2⟩
      rw [hb1, pushMsg_trace, ht, pushMsg_trace]
      have hne : dev ≠ d := fun hq => hd hq.symm
      simp [userResultsFor_append, userResultsFor_cons_userResult, hur, hne]

/-- The loop emits no shared-project outcome lines. -/
theorem dev_loop_projectResults (devs : List String) (w : World)
    (results : List (String × String)) :
    projectResults ((dev_loop w devs results).1.trace) = projectResults w.trace := by
  induction devs generalizing w results with
  | nil => rfl
  | cons dev rest ih =>
    rw [dev_loop_cons, ih]
    obtain ⟨t, ht, hn⟩ := create_dev_user_ext (pushMsg w (Event.msgCreatingDev dev)) dev
    obtain ⟨_, _, hpr⟩ := noOrchMsgs_extract t hn
    rw [pushMsg_trace, ht, pushMsg_trace]
    simp [projectResults_append, hpr]

/-- The returned dict of `create_devs` is the loop's dict: the optional
shared-project phase contributes nothing to the returned value. -/
theorem create_devs_results (w : World) (devs : List String) (proj : Option String) :
    (create_devs w devs proj).2 = (dev_loop w devs []).2 := by
  cases proj with
  | none => rfl
  | some p =>
    by_cases hp : p = "" <;> simp [create_devs, hp]

/-- The trace of `create_devs` extends the loop's trace only by events
that carry no per-developer announcement or outcome lines. -/
theorem create_devs_trace_ext (w : World) (devs : List String) (proj : Option String) :
    ∃ t, (create_devs w devs proj).1.trace = (dev_loop w devs []).1.trace ++ t
      ∧ creatingDevs t = [] ∧ (∀ d, userResultsFor d t = []) := by
  cases proj with
  | none => exact ⟨[], by simp [create_devs], rfl, fun _ => rfl⟩
  | some p =>
    by_cases hp : p = ""
    · exact ⟨[], by simp [create_devs, hp], rfl, fun _ => rfl⟩
    · obtain ⟨t1, h1, hn1⟩ := create_shared_project_ext
        (pushMsg (dev_loop w devs []).1 (Event.msgCreatingProject p)) p devs
      obtain ⟨hcd, hur, _⟩ := noOrchMsgs_extract t1 hn1
      refine ⟨Event.msgCreatingProject p :: (t1 ++
        [Event.msgProjectResult p
          (create_shared_project (pushMsg (dev_loop w devs []).1
            (Event.msgCreatingProject p)) p devs).2]), ?_, ?_, ?_⟩
      · have hs : (create_devs w devs (some p)).1
            = pushMsg (create_shared_project (pushMsg (dev_loop w devs []).1
                (Event.msgCreatingProject p)) p devs).1
              (Event.msgProjectResult p
                (create_shared_project (pushMsg (dev_loop w devs []).1
                  (Event.msgCreatingProject p)) p devs).2) := by
          simp [create_devs, hp]
        rw [hs, pushMsg_trace, h1, pushMsg_trace]
        simp
      · simp [creatingDevs_append, hcd]
      · intro d
        simp [userResultsFor_append, hur]

/-! ## Claim theorems -/

/-- Claim C1. For every input list of developer identifiers, `create_devs`
invokes `create_dev_user` once per identifier in input order (witnessed by
the progress line printed immediately before each invocation), records an
outcome in the returned mapping exactly for the input identifiers, and —
on duplicate-free input — records `"Success"` for an identifier exactly
when its `create_dev_user` invocation succeeded (`"Failed"` otherwise,
the same bit as that developer's printed outcome line), continuing past
failures; the orchestrator is a total function returning an outcome for
every input identifier (errors are converted to booleans below it and
never propagate). -/
theorem c1_create_devs_outcomes (w : World) (devs : List String) (proj : Option String) :
    creatingDevs ((create_devs w devs proj).1.trace) = creatingDevs w.trace ++ devs
    ∧ (∀ d, (alookup ((create_devs w devs proj).2) d).isSome ↔ d ∈ devs)
    ∧ (devs.Nodup → ∀ d, d ∈ devs → ∃ b,
        userResultsFor d ((create_devs w devs proj).1.trace)
          = userResultsFor d w.trace ++ [b]
        ∧ alookup ((create_devs w devs proj).2) d
            = some (if b then "Success" else "Failed")) := by
  obtain ⟨t, ht, hcd, hur⟩ := create_devs_trace_ext w devs proj
  refine ⟨?_, ?_, ?_⟩
  · rw [ht, creatingDevs_append, hcd, List.append_nil, dev_loop_creatingDevs]
  · intro d
    rw [create_devs_results, dev_loop_isSome]
    simp [alookup]
  · intro hnd d hd
    obtain ⟨b, hb1, hb2⟩ := dev_loop_results_nodup devs w [] d hnd hd
    refine ⟨b, ?_, ?_⟩
    · rw [ht, userResultsFor_append, hur, List.append_nil, hb1]
    · rw [create_devs_results]
      exact hb2

/-- Witness for C1 at a concrete input: a duplicate-free two-developer
run on the all-succeeding host. -/
theorem c1_witness :
    List.Nodup ["alice", "bob"]
    ∧ (∃ b, userResultsFor "alice"
          ((create_devs allOkWorld ["alice", "bob"] (some "webapp")).1.trace)
          = userResultsFor "alice" allOkWorld.trace ++ [b]
        ∧ alookup ((create_devs allOkWorld ["alice", "bob"] (some "webapp")).2) "alice"
            = some (if b then "Success" else "Failed")) :=
  ⟨by decide,
   (c1_create_devs_outcomes allOkWorld ["alice", "bob"] (some "webapp")).2.2
     (by decide) "alice" (by decide)⟩

/-- Claim C2. Given an empty developer list, the orchestrator run (`main`,
which guards the empty configuration before calling `create_devs`)
prints the explanatory no-op message and returns immediately: it
attempts no privileged command at all — in particular
`create_shared_project` is never invoked — even when a project name is
present. -/
theorem c2_empty_input (w : World) (proj : Option String) :
    main_run w [] proj = pushMsg w Event.msgNoDevs
    ∧ cmdEvents ((main_run w [] proj).trace) = cmdEvents w.trace := by
  constructor
  · rfl
  · show cmdEvents (w.trace ++ [Event.msgNoDevs]) = cmdEvents w.trace
    rw [cmdEvents_append]
    simp [cmdEvents]

/-- Claim C10. With duplicated identifiers in the input list,
`create_devs` still invokes `create_dev_user` once per occurrence (in
input order), the returned dict holds exactly one entry for each listed
identifier, and that entry's outcome is the outcome of the last
occurrence processed. -/
theorem c10_duplicate_identifiers (w : World) (devs : List String) (proj : Option String) :
    creatingDevs ((create_devs w devs proj).1.trace) = creatingDevs w.trace ++ devs
    ∧ (∀ d, countKey ((create_devs w devs proj).2) d = if d ∈ devs then 1 else 0)
    ∧ (∀ d, d ∈ devs → ∃ bs b,
        userResultsFor d ((create_devs w devs proj).1.trace)
          = userResultsFor d w.trace ++ (bs ++ [b])
        ∧ alookup ((create_devs w devs proj).2) d
            = some (if b then "Success" else "Failed")) := by
  obtain ⟨t, ht, hcd, hur⟩ := create_devs_trace_ext w devs proj
  refine ⟨?_, ?_, ?_⟩
  · rw [ht, creatingDevs_append, hcd, List.append_nil, dev_loop_creatingDevs]
  · intro d
    rw [create_devs_results]
    have hck := dev_loop_countKey devs w [] d (by simp [countKey, alookup])
    have hsome := dev_loop_isSome devs w [] d
    by_cases hd : d ∈ devs
    · rw [hck, if_pos (hsome.mpr (Or.inl hd)), if_pos hd]
    · have hno : ¬ (alookup ((dev_loop w devs []).2) d).isSome = true := by
        intro hs
        rcases hsome.mp hs with h1 | h1
        · exact hd h1
        · simp [alookup] at h1
      rw [hck, if_neg hno, if_neg hd]
  · intro d hd
    obtain ⟨bs, b, hb1, hb2⟩ := dev_loop_results_mem devs w [] d hd
    refine ⟨bs, b, ?_, ?_⟩
    · rw [ht, userResultsFor_append, hur, List.append_nil, hb1]
    · rw [create_devs_results]
      exact hb2

/-- Witness for C10 at a concrete input: the same identifier twice; the
first occurrence succeeds, the second fails (`useradd` refuses the
existing account), one dict entry with the last outcome remains. -/
theorem c10_witness :
    ("alice" ∈ ["alice", "alice"])
    ∧ (∃ bs b, userResultsFor "alice"
          ((create_devs allOkWorld ["alice", "alice"] none).1.trace)
          = userResultsFor "alice" allOkWorld.trace ++ (bs ++ [b])
        ∧ alookup ((create_devs allOkWorld ["alice", "alice"] none).2) "alice"
            = some (if b then "Success" else "Failed")) :=
  ⟨by decide,
   (c10_duplicate_identifiers allOkWorld ["alice", "alice"] none).2.2 "alice" (by decide)⟩

/-- When a checked command sequence succeeds, every command in it was
attempted, in order, and succeeded. -/
theorem runChecked_success_trace (cs : List Cmd) (w : World)
    (h : (runChecked w cs).2 = true) :
    (runChecked w cs).1.trace = w.trace ++ cs.map (fun c => Event.cmd c true) := by
  induction cs generalizing w with
  | nil => simp [runChecked]
  | cons c rest ih =>
    by_cases hc : (runCmd w c).2 = true
    · have hred : runChecked w (c :: rest) = runChecked (runCmd w c).1 rest := by
        simp [runChecked, hc]
      rw [hred] at h ⊢
      rw [ih _ h, runCmd_trace, hc]
      simp
    · have hred : runChecked w (c :: rest) = ((runCmd w c).1, false) := by
        simp [runChecked, hc]
      rw [hred] at h
      cases h

/-- Claim C3, counterexample. The value returned by the orchestrator for a
concrete successful run with a project name is exactly the per-developer
outcome mapping — it is identical to the value returned without any
project name, so it contains no overall shared-project outcome. -/
theorem c3_counterexample :
    (create_devs allOkWorld ["dev1"] (some "webapp")).2 = [("dev1", "Success")]
    ∧ (create_devs allOkWorld ["dev1"] (some "webapp")).2
        = (create_devs allOkWorld ["dev1"] none).2 := by
  constructor
  · rfl
  · rfl

/-- Claim C3, amended. When a non-empty project name is supplied, the
value `create_devs` returns is only the per-developer outcome mapping
(identical to the mapping a run without project name returns); the
overall shared-project outcome is reported separately on the progress
stream; and the shared-project step is invoked with the full developer
list (including developers whose account creation failed), as the
unfolding equation shows `create_shared_project` applied to `devs`
itself. -/
theorem c3_shared_project_reporting (w : World) (devs : List String) (p : String)
    (hp : p ≠ "") :
    (create_devs w devs (some p)).2 = (create_devs w devs none).2
    ∧ create_devs w devs (some p)
        = (pushMsg (create_shared_project (pushMsg (dev_loop w devs []).1
              (Event.msgCreatingProject p)) p devs).1
            (Event.msgProjectResult p
              (create_shared_project (pushMsg (dev_loop w devs []).1
                (Event.msgCreatingProject p)) p devs).2),
           (dev_loop w devs []).2)
    ∧ (∃ b, projectResults ((create_devs w devs (some p)).1.trace)
         = projectResults w.trace ++ [(p, b)]) := by
  refine ⟨?_, ?_, ?_⟩
  · rw [create_devs_results, create_devs_results]
  · simp [create_devs, hp]
  · obtain ⟨t1, h1, hn1⟩ := create_shared_project_ext
      (pushMsg (dev_loop w devs []).1 (Event.msgCreatingProject p)) p devs
    obtain ⟨-, -, hpr⟩ := noOrchMsgs_extract t1 hn1
    refine ⟨(create_shared_project (pushMsg (dev_loop w devs []).1
      (Event.msgCreatingProject p)) p devs).2, ?_⟩
    have hs : (create_devs w devs (some p)).1
        = pushMsg (create_shared_project (pushMsg (dev_loop w devs []).1
            (Event.msgCreatingProject p)) p devs).1
          (Event.msgProjectResult p
            (create_shared_project (pushMsg (dev_loop w devs []).1
              (Event.msgCreatingProject p)) p devs).2) := by
      simp [create_devs, hp]
    rw [hs, pushMsg_trace, h1, pushMsg_trace]
    simp [projectResults_append, hpr, dev_loop_projectResults]

/-- Witness for C3 (amended) at a concrete input: a run in which one
developer's account creation failed; the returned value still carries
no shared-project component. -/
theorem c3_witness :
    ("webapp" ≠ "")
    ∧ (create_devs aliceFailWorld ["alice", "bob"] (some "webapp")).2
        = (create_devs aliceFailWorld ["alice", "bob"] none).2 :=
  ⟨by decide,
   (c3_shared_project_reporting aliceFailWorld ["alice", "bob"] "webapp" (by decide)).1⟩

/-- Claim C4. Evaluation of `setup_ssh_keys` at the failing input: the one
`ssh-keygen` invocation is `-t rsa -b 4096 -f <ssh_dir>/id_rsa`, as the
claim states, but its `-N` passphrase argument is the two-character
string consisting of two double-quote characters — not the empty
string: the source passes the Python literal `'""'` in the argv list,
where no shell strips the quotes. -/
theorem c4_keygen_arguments :
    keygens ((setup_ssh_keys allOkWorld "dev1").1.trace)
      = [Cmd.sshKeygen "rsa" "4096" "/home/dev1/.ssh/id_rsa" "\"\""]
    ∧ ("\"\"" : String) ≠ "" := by
  constructor
  · rfl
  · decide

/-- Claim C5, counterexample. On a host where step 7 — surfacing the
private key (`sudo cat`, the only command run without `check=True`) —
fails, `setup_ssh_keys` still reports success: the failing `cat` attempt
is in the trace while the returned outcome is `true`. -/
theorem c5_counterexample :
    (setup_ssh_keys catFailWorld "dev1").2 = true
    ∧ Event.cmd (Cmd.cat "/home/dev1/.ssh/id_rsa") false
        ∈ (setup_ssh_keys catFailWorld "dev1").1.trace := by
  constructor
  · rfl
  · decide

/-- Claim C5, amended. The outcome of `setup_ssh_keys` is exactly the
outcome of its nine `check=True` commands (steps 1–6 of the spec): any
of them failing aborts the remaining steps (nothing but the error
message follows the failure point) and reports failure; success is
reported iff every checked command succeeded (all nine then appear in
the trace, in order, successful). The step-7 key display (`cat`,
without `check=True`) never affects the reported outcome. -/
theorem c5_ssh_step_failures (w : World) (u : String) :
    (setup_ssh_keys w u).2 = (runChecked w (sshCheckedCmds u)).2
    ∧ ((runChecked w (sshCheckedCmds u)).2 = false →
        setup_ssh_keys w u
          = (pushMsg (runChecked w (sshCheckedCmds u)).1 (Event.msgSshError u), false))
    ∧ (∀ (w1 : World) (c : Cmd) (cs : List Cmd), (runCmd w1 c).2 = false →
        runChecked w1 (c :: cs) = ((runCmd w1 c).1, false))
    ∧ ((runChecked w (sshCheckedCmds u)).2 = true →
        (runChecked w (sshCheckedCmds u)).1.trace
          = w.trace ++ (sshCheckedCmds u).map (fun c => Event.cmd c true)) := by
  refine ⟨?_, ?_, ?_, ?_⟩
  · by_cases hb : (runChecked w (sshCheckedCmds u)).2 = true <;>
      simp [setup_ssh_keys, hb]
  · intro h
    simp [setup_ssh_keys, h]
  · intro w1 c cs h
    simp [runChecked, h]
  · intro h
    exact runChecked_success_trace _ w h

/-- Witness for C5 (amended) at a concrete input: key generation fails,
the function aborts right there and reports failure. -/
theorem c5_witness :
    ((runChecked keygenFailWorld (sshCheckedCmds "dev1")).2 = false)
    ∧ setup_ssh_keys keygenFailWorld "dev1"
        = (pushMsg (runChecked keygenFailWorld (sshCheckedCmds "dev1")).1
            (Event.msgSshError "dev1"), false) :=
  ⟨by decide, (c5_ssh_step_failures keygenFailWorld "dev1").2.1 (by decide)⟩

/-- A Python file write either succeeds — recording exactly the given
content at the path — or fails leaving the filesystem untouched. -/
theorem pyWriteFile_cases (w : World) (p content : String) :
    pyWriteFile w p content
       = ({ w with fs := upsert w.fs p (Entry.file content),
                   trace := w.trace ++ [Event.pywrite p content true] }, true)
    ∨ pyWriteFile w p content
       = ({ w with trace := w.trace ++ [Event.pywrite p content false] }, false) := by
  unfold pyWriteFile
  repeat' split
  all_goals first
    | exact Or.inl rfl
    | exact Or.inr rfl

/-- Claim C6. `configure_sudo` first writes the privilege-escalation rule
content and then restricts the backing file to mode 440 (the write
event precedes the chmod event in the trace); it reports failure exactly
when the content write fails or the mode-restriction command fails; on
success the sudoers file of developer `u` holds exactly the single rule
`u ALL=(ALL) NOPASSWD:ALL` and its recorded mode is 440. -/
theorem c6_configure_sudo (w : World) (u : String) :
    ((configure_sudo w u).2
       = ((pyWriteFile w ("/etc/sudoers.d/" ++ u) (u ++ " ALL=(ALL) NOPASSWD:ALL")).2
          && w.ok (Cmd.chmod "440" ("/etc/sudoers.d/" ++ u))))
    ∧ ((configure_sudo w u).2 = true →
        alookup ((configure_sudo w u).1.fs) ("/etc/sudoers.d/" ++ u)
            = some (Entry.file (u ++ " ALL=(ALL) NOPASSWD:ALL"))
        ∧ alookup ((configure_sudo w u).1.modes) ("/etc/sudoers.d/" ++ u) = some "440"
        ∧ (configure_sudo w u).1.trace
            = w.trace ++ [Event.pywrite ("/etc/sudoers.d/" ++ u)
                            (u ++ " ALL=(ALL) NOPASSWD:ALL") true,
                          Event.cmd (Cmd.chmod "440" ("/etc/sudoers.d/" ++ u)) true]) := by
  rcases pyWriteFile_cases w ("/etc/sudoers.d/" ++ u) (u ++ " ALL=(ALL) NOPASSWD:ALL")
    with hcase | hcase
  · by_cases hok : w.ok (Cmd.chmod "440" ("/etc/sudoers.d/" ++ u)) = true
    · constructor
      · simp [configure_sudo, hcase, runCmd, applyCmd, hok, alookup_upsert_self]
      · intro _
        refine ⟨?_, ?_, ?_⟩
        · simp [configure_sudo, hcase, runCmd, applyCmd, hok, alookup_upsert_self]
        · simp [configure_sudo, hcase, runCmd, applyCmd, hok, alookup_upsert_self]
        · simp [configure_sudo, hcase, runCmd, applyCmd, hok, alookup_upsert_self]
    · constructor
      · simp [configure_sudo, hcase, runCmd, applyCmd, hok, alookup_upsert_self]
      · intro hcontra
        exfalso
        have : (configure_sudo w u).2 = false := by
          simp [configure_sudo, hcase, runCmd, applyCmd, hok, alookup_upsert_self]
        rw [this] at hcontra
        cases hcontra
  · constructor
    · simp [configure_sudo, hcase]
    · intro hcontra
      exfalso
      have : (configure_sudo w u).2 = false := by
        simp [configure_sudo, hcase]
      rw [this] at hcontra
      cases hcontra

/-- Witness for C6 at a concrete input: write and restriction succeed,
the file holds the single rule with mode 440 after the write. -/
theorem c6_witness :
    (configure_sudo allOkWorld "dev1").2 = true
    ∧ (alookup ((configure_sudo allOkWorld "dev1").1.fs) "/etc/sudoers.d/dev1"
         = some (Entry.file "dev1 ALL=(ALL) NOPASSWD:ALL")
       ∧ alookup ((configure_sudo allOkWorld "dev1").1.modes) "/etc/sudoers.d/dev1"
           = some "440"
       ∧ (configure_sudo allOkWorld "dev1").1.trace
           = allOkWorld.trace ++ [Event.pywrite "/etc/sudoers.d/dev1"
                                    "dev1 ALL=(ALL) NOPASSWD:ALL" true,
                                  Event.cmd (Cmd.chmod "440" "/etc/sudoers.d/dev1") true]) :=
  ⟨rfl, (c6_configure_sudo allOkWorld "dev1").2 rfl⟩

/-- No privileged command ever removes an OS account. -/
theorem runCmd_users_mono (w : World) (c : Cmd) (v : String) (h : v ∈ w.users) :
    v ∈ (runCmd w c).1.users := by
  show v ∈ (applyCmd w c).1.users
  unfold applyCmd
  repeat' split
  all_goals first
    | exact h
    | exact List.mem_append_left _ h

theorem runChecked_users_mono (cs : List Cmd) (w : World) (v : String) (h : v ∈ w.users) :
    v ∈ (runChecked w cs).1.users := by
  induction cs generalizing w with
  | nil => exact h
  | cons c rest ih =>
    by_cases hb : (runCmd w c).2 = true
    · have : runChecked w (c :: rest) = runChecked (runCmd w c).1 rest := by
        simp [runChecked, hb]
      rw [this]
      exact ih _ (runCmd_users_mono w c v h)
    · have : runChecked w (c :: rest) = ((runCmd w c).1, false) := by
        simp [runChecked, hb]
      rw [this]
      exact runCmd_users_mono w c v h

theorem pyWriteFile_users (w : World) (p content : String) :
    (pyWriteFile w p content).1.users = w.users := by
  unfold pyWriteFile
  repeat' split
  all_goals rfl

theorem configure_sudo_users_mono (w : World) (u v : String) (h : v ∈ w.users) :
    v ∈ (configure_sudo w u).1.users := by
  have hw : v ∈ (pyWriteFile w ("/etc/sudoers.d/" ++ u)
      (u ++ " ALL=(ALL) NOPASSWD:ALL")).1.users := by
    rw [pyWriteFile_users]
    exact h
  by_cases hb : (pyWriteFile w ("/etc/sudoers.d/" ++ u)
      (u ++ " ALL=(ALL) NOPASSWD:ALL")).2 = true
  · by_cases hc : (runCmd (pyWriteFile w ("/etc/sudoers.d/" ++ u)
        (u ++ " ALL=(ALL) NOPASSWD:ALL")).1
        (Cmd.chmod "440" ("/etc/sudoers.d/" ++ u))).2 = true
    · have hs : (configure_sudo w u).1
          = (runCmd (pyWriteFile w ("/etc/sudoers.d/" ++ u)
              (u ++ " ALL=(ALL) NOPASSWD:ALL")).1
              (Cmd.chmod "440" ("/etc/sudoers.d/" ++ u))).1 := by
        simp [configure_sudo, hb, hc]
      rw [hs]
      exact runCmd_users_mono _ _ _ hw
    · have hs : (configure_sudo w u).1
          = pushMsg (runCmd (pyWriteFile w ("/etc/sudoers.d/" ++ u)
              (u ++ " ALL=(ALL) NOPASSWD:ALL")).1
              (Cmd.chmod "440" ("/etc/sudoers.d/" ++ u))).1 (Event.msgSudoError u) := by
        simp [configure_sudo, hb, hc]
      rw [hs]
      exact runCmd_users_mono _ _ _ hw
  · have hs : (configure_sudo w u).1
        = pushMsg (pyWriteFile w ("/etc/sudoers.d/" ++ u)
            (u ++ " ALL=(ALL) NOPASSWD:ALL")).1 (Event.msgSudoError u) := by
      simp [configure_sudo, hb]
    rw [hs]
    exact hw

theorem setup_ssh_keys_users_mono (w : World) (u v : String) (h : v ∈ w.users) :
    v ∈ (setup_ssh_keys w u).1.users := by
  have hrc : v ∈ (runChecked w (sshCheckedCmds u)).1.users :=
    runChecked_users_mono _ _ _ h
  by_cases hb : (runChecked w (sshCheckedCmds u)).2 = true
  · have hs : (setup_ssh_keys w u).1
        = (runCmd (pushMsg (runChecked w (sshCheckedCmds u)).1 (Event.msgSshKeyHeader u))
            (Cmd.cat ("/home/" ++ u ++ "/.ssh" ++ "/id_rsa"))).1 := by
      simp [setup_ssh_keys, hb]
    rw [hs]
    exact runCmd_users_mono _ _ _ hrc
  · have hs : (setup_ssh_keys w u).1
        = pushMsg (runChecked w (sshCheckedCmds u)).1 (Event.msgSshError u) := by
      simp [setup_ssh_keys, hb]
    rw [hs]
    exact hrc

/-- A successful `useradd u` registers the account `u`. -/
theorem runCmd_useradd_mem (w : World) (u : String)
    (h : (runCmd w (Cmd.useradd u)).2 = true) :
    u ∈ (runCmd w (Cmd.useradd u)).1.users := by
  by_cases hok : w.ok (Cmd.useradd u) = true
  · by_cases hmem : u ∈ w.users
    · have : (runCmd w (Cmd.useradd u)).2 = false := by
        simp [runCmd, applyCmd, hok, hmem]
      rw [this] at h
      cases h
    · show u ∈ (applyCmd w (Cmd.useradd u)).1.users
      simp [applyCmd, hok, hmem]
  · have : (runCmd w (Cmd.useradd u)).2 = false := by
      simp [runCmd, applyCmd, hok]
    rw [this] at h
    cases h

@[simp]
theorem keygens_nil : keygens [] = [] := rfl

@[simp]
theorem keygens_cmd_useradd (u : String) (b : Bool) (t : List Event) :
    keygens (Event.cmd (Cmd.useradd u) b :: t) = keygens t := by
  simp [keygens, List.filterMap_cons]

/-- Claim C8. `create_dev_user` executes account creation, then the sudo
grant, then SSH provisioning, in that fixed order, short-circuiting at
the first failing stage: a `useradd` failure ends the call with only the
error message (neither later stage runs); a sudo-grant failure ends the
call right after `configure_sudo` (no `ssh-keygen` is ever attempted);
an SSH failure ends the call after `setup_ssh_keys`. No rollback is
performed: the account registered by the successful `useradd` is still
present in the final state when a later stage fails. All stages
succeeding yields success. -/
theorem c8_create_dev_user_stages (w : World) (u : String) :
    ((runCmd w (Cmd.useradd u)).2 = false →
      create_dev_user w u
        = (pushMsg (runCmd w (Cmd.useradd u)).1 (Event.msgUserError u), false))
    ∧ ((runCmd w (Cmd.useradd u)).2 = true →
       (configure_sudo (runCmd w (Cmd.useradd u)).1 u).2 = false →
        create_dev_user w u = ((configure_sudo (runCmd w (Cmd.useradd u)).1 u).1, false)
        ∧ u ∈ (create_dev_user w u).1.users
        ∧ keygens ((create_dev_user w u).1.trace) = keygens w.trace)
    ∧ ((runCmd w (Cmd.useradd u)).2 = true →
       (configure_sudo (runCmd w (Cmd.useradd u)).1 u).2 = true →
       (setup_ssh_keys (configure_sudo (runCmd w (Cmd.useradd u)).1 u).1 u).2 = false →
        create_dev_user w u
          = ((setup_ssh_keys (configure_sudo (runCmd w (Cmd.useradd u)).1 u).1 u).1, false)
        ∧ u ∈ (create_dev_user w u).1.users)
    ∧ ((runCmd w (Cmd.useradd u)).2 = true →
       (configure_sudo (runCmd w (Cmd.useradd u)).1 u).2 = true →
       (setup_ssh_keys (configure_sudo (runCmd w (Cmd.useradd u)).1 u).1 u).2 = true →
        (create_dev_user w u).2 = true) := by
  refine ⟨?_, ?_, ?_, ?_⟩
  · intro h1
    simp [create_dev_user, h1]
  · intro h1 h2
    have hs : create_dev_user w u
        = ((configure_sudo (runCmd w (Cmd.useradd u)).1 u).1, false) := by
      simp [create_dev_user, h1, h2]
    refine ⟨hs, ?_, ?_⟩
    · rw [hs]
      exact configure_sudo_users_mono _ _ _ (runCmd_useradd_mem w u h1)
    · rw [hs]
      obtain ⟨t, ht, _, hk⟩ := configure_sudo_ext (runCmd w (Cmd.useradd u)).1 u
      rw [ht, keygens_append, hk, List.append_nil, runCmd_trace, keygens_append]
      simp
  · intro h1 h2 h3
    have hs : create_dev_user w u
        = ((setup_ssh_keys (configure_sudo (runCmd w (Cmd.useradd u)).1 u).1 u).1, false) := by
      simp [create_dev_user, h1, h2, h3]
    refine ⟨hs, ?_⟩
    rw [hs]
    exact setup_ssh_keys_users_mono _ _ _
      (configure_sudo_users_mono _ _ _ (runCmd_useradd_mem w u h1))
  · intro h1 h2 h3
    simp [create_dev_user, h1, h2, h3]

/-- Witness for C8 at a concrete input: the sudo stage fails (the rule
cannot be written), `create_dev_user` stops there reporting failure, the
created account persists, and no `ssh-keygen` was attempted. -/
theorem c8_witness :
    ((runCmd sudoWriteFailWorld (Cmd.useradd "dev1")).2 = true)
    ∧ (create_dev_user sudoWriteFailWorld "dev1"
         = ((configure_sudo (runCmd sudoWriteFailWorld (Cmd.useradd "dev1")).1 "dev1").1, false)
       ∧ "dev1" ∈ (create_dev_user sudoWriteFailWorld "dev1").1.users
       ∧ keygens ((create_dev_user sudoWriteFailWorld "dev1").1.trace)
           = keygens sudoWriteFailWorld.trace) :=
  ⟨by decide,
   (c8_create_dev_user_stages sudoWriteFailWorld "dev1").2.1 (by decide) (by decide)⟩

/-- Claim C9. `create_shared_project` issues the six root/public-directory
commands (creation, ownership, mode — ownership and mode re-applied with
no precondition on prior existence) before any per-developer command;
a failure in any developer's processing aborts the remaining loop
iterations (the loop stops at the failing developer's state) and the
whole build reports overall failure; a failure among the root commands
skips the developer loop entirely. -/
theorem c9_shared_project_structure (w : World) (p : String) (us : List String) :
    ((runChecked w (rootCmds p)).2 = true →
      ∃ t, (create_shared_project w p us).1.trace
        = w.trace ++ (rootCmds p).map (fun c => Event.cmd c true) ++ t)
    ∧ (∀ (w1 : World) (u : String) (us1 : List String), (linkUser w1 p u).2 = false →
        linkUsersLoop w1 p (u :: us1) = ((linkUser w1 p u).1, false))
    ∧ ((runChecked w (rootCmds p)).2 = true →
       (linkUsersLoop (runChecked w (rootCmds p)).1 p us).2 = false →
        (create_shared_project w p us).2 = false)
    ∧ ((runChecked w (rootCmds p)).2 = false →
        create_shared_project w p us
          = (pushMsg (runChecked w (rootCmds p)).1 Event.msgSharedError, false)) := by
  refine ⟨?_, ?_, ?_, ?_⟩
  · intro h
    have hroot := runChecked_success_trace (rootCmds p) w h
    obtain ⟨t2, h2, _⟩ := linkUsersLoop_ext us (runChecked w (rootCmds p)).1 p
    by_cases hl : (linkUsersLoop (runChecked w (rootCmds p)).1 p us).2 = true
    · refine ⟨t2, ?_⟩
      have hs : (create_shared_project w p us).1
          = (linkUsersLoop (runChecked w (rootCmds p)).1 p us).1 := by
        simp [create_shared_project, h, hl]
      rw [hs, h2, hroot]
    · refine ⟨t2 ++ [Event.msgSharedError], ?_⟩
      have hs : (create_shared_project w p us).1
          = pushMsg (linkUsersLoop (runChecked w (rootCmds p)).1 p us).1
              Event.msgSharedError := by
        simp [create_shared_project, h, hl]
      rw [hs, pushMsg_trace, h2, hroot]
      simp [List.append_assoc]
  · intro w1 u us1 h
    simp [linkUsersLoop, h]
  · intro h1 h2
    simp [create_shared_project, h1, h2]
  · intro h
    simp [create_shared_project, h]

/-- Witness for C9 at a concrete input: the project directories already
exist, yet all six root commands are issued (and succeed) before the
developer part of the trace. -/
theorem c9_witness :
    ((runChecked preExistingProjWorld (rootCmds "webapp")).2 = true)
    ∧ (∃ t, (create_shared_project preExistingProjWorld "webapp" ["dev1"]).1.trace
        = preExistingProjWorld.trace
          ++ (rootCmds "webapp").map (fun c => Event.cmd c true) ++ t) :=
  ⟨by decide,
   (c9_shared_project_structure preExistingProjWorld "webapp" ["dev1"]).1 (by decide)⟩

/-- The commands `create_shared_project` issues: directory creation,
ownership, mode, and link creation. None of them can remove or rebind an
existing filesystem entry: `mkdir -p` and `ln -s` insert only at an
unbound path (`ln -s` fails on a bound one), `chown`/`chmod` leave the
namespace untouched. -/
def buildCmd : Cmd → Bool
  | Cmd.mkdirp _ => true
  | Cmd.chown _ _ _ => true
  | Cmd.chmod _ _ => true
  | Cmd.lns _ _ => true
  | _ => false

theorem applyCmd_fs_stable (w : World) (c : Cmd) (q : String) (e : Entry)
    (hb : buildCmd c = true) (h : alookup w.fs q = some e) :
    alookup (applyCmd w c).1.fs q = some e
    ∧ countKey (applyCmd w c).1.fs q = countKey w.fs q := by
  by_cases hok : w.ok c = true
  · cases c with
    | mkdirp path =>
      unfold applyCmd
      rw [if_pos hok]
      rcases hl : alookup w.fs path with _ | en
      · have hne : path ≠ q := fun hpq => by rw [hpq, h] at hl; cases hl
        simp only [hl]
        constructor
        · rw [alookup_upsert_ne _ _ _ _ (fun hq => hne hq.symm)]
          exact h
        · rw [countKey_upsert_free _ _ _ _ hl, if_neg hne]
          exact Nat.add_zero _
      · cases en <;> simp only [hl] <;> exact ⟨h, by trivial⟩
    | chown o path r =>
      unfold applyCmd
      rw [if_pos hok]
      by_cases hs : (alookup w.fs path).isSome = true <;> simp only [hs, if_true, if_false] <;>
        exact ⟨h, by trivial⟩
    | chmod m path =>
      unfold applyCmd
      rw [if_pos hok]
      by_cases hs : (alookup w.fs path).isSome = true <;> simp only [hs, if_true, if_false] <;>
        exact ⟨h, by trivial⟩
    | lns tgt path =>
      unfold applyCmd
      rw [if_pos hok]
      rcases hl : alookup w.fs path with _ | en
      · have hne : path ≠ q := fun hpq => by rw [hpq, h] at hl; cases hl
        simp only [hl]
        constructor
        · rw [alookup_upsert_ne _ _ _ _ (fun hq => hne hq.symm)]
          exact h
        · rw [countKey_upsert_free _ _ _ _ hl, if_neg hne]
          exact Nat.add_zero _
      · simp only [hl]
        exact ⟨h, by trivial⟩
    | useradd n => simp [buildCmd] at hb
    | sshKeygen a b f n => simp [buildCmd] at hb
    | touch path => simp [buildCmd] at hb
    | rm path => simp [buildCmd] at hb
    | cat path => simp [buildCmd] at hb
  · unfold applyCmd
    rw [if_neg hok]
    exact ⟨h, rfl⟩

theorem runCmd_fs_stable (w : World) (c : Cmd) (q : String) (e : Entry)
    (hb : buildCmd c = true) (h : alookup w.fs q = some e) :
    alookup (runCmd w c).1.fs q = some e
    ∧ countKey (runCmd w c).1.fs q = countKey w.fs q :=
  applyCmd_fs_stable w c q e hb h

theorem runChecked_fs_stable (cs : List Cmd) (w : World) (q : String) (e : Entry)
    (hall : ∀ c ∈ cs, buildCmd c = true) (h : alookup w.fs q = some e) :
    alookup (runChecked w cs).1.fs q = some e
    ∧ countKey (runChecked w cs).1.fs q = countKey w.fs q := by
  induction cs generalizing w with
  | nil => exact ⟨h, rfl⟩
  | cons c rest ih =>
    have hc := hall c (List.mem_cons_self c rest)
    obtain ⟨h1, h2⟩ := runCmd_fs_stable w c q e hc h
    by_cases hb : (runCmd w c).2 = true
    · have hs : runChecked w (c :: rest) = runChecked (runCmd w c).1 rest := by
        simp [runChecked, hb]
      rw [hs]
      obtain ⟨h3, h4⟩ := ih (runCmd w c).1 (fun c' hc' => hall c' (List.mem_cons_of_mem _ hc')) h1
      exact ⟨h3, by rw [h4, h2]⟩
    · have hs : runChecked w (c :: rest) = ((runCmd w c).1, false) := by
        simp [runChecked, hb]
      rw [hs]
      exact ⟨h1, h2⟩

theorem linkUser_fs_stable (w : World) (p u q : String) (e : Entry)
    (h : alookup w.fs q = some e) :
    alookup (linkUser w p u).1.fs q = some e
    ∧ countKey (linkUser w p u).1.fs q = countKey w.fs q := by
  have hdir : ∀ c ∈ userDirCmds p u, buildCmd c = true := by
    intro c hc
    simp only [userDirCmds, List.mem_cons, List.not_mem_nil, or_false] at hc
    rcases hc with h1 | h1 | h1 <;> subst h1 <;> rfl
  obtain ⟨h1, h2⟩ := runChecked_fs_stable (userDirCmds p u) w q e hdir h
  by_cases hb : (runChecked w (userDirCmds p u)).2 = true
  · by_cases hx : pathExists (runChecked w (userDirCmds p u)).1.fs
        ("/home/" ++ u ++ "/" ++ p ++ "/public") = true
    · have hs : linkUser w p u
          = runCmd (runChecked w (userDirCmds p u)).1
              (Cmd.chown (u ++ ":" ++ u) ("/home/" ++ u ++ "/" ++ p ++ "/public") false) := by
        simp [linkUser, hb, hx]
      rw [hs]
      obtain ⟨h3, h4⟩ := runCmd_fs_stable (runChecked w (userDirCmds p u)).1
        (Cmd.chown (u ++ ":" ++ u) ("/home/" ++ u ++ "/" ++ p ++ "/public") false) q e rfl h1
      exact ⟨h3, by rw [h4, h2]⟩
    · obtain ⟨h3, h4⟩ := runCmd_fs_stable (runChecked w (userDirCmds p u)).1
        (Cmd.lns ("/opt/" ++ p ++ "/public") ("/home/" ++ u ++ "/" ++ p ++ "/public"))
        q e rfl h1
      by_cases hl : (runCmd (runChecked w (userDirCmds p u)).1
          (Cmd.lns ("/opt/" ++ p ++ "/public")
            ("/home/" ++ u ++ "/" ++ p ++ "/public"))).2 = true
      · have hs : linkUser w p u
            = runCmd (runCmd (runChecked w (userDirCmds p u)).1
                (Cmd.lns ("/opt/" ++ p ++ "/public") ("/home/" ++ u ++ "/" ++ p ++ "/public"))).1
                (Cmd.chown (u ++ ":" ++ u) ("/home/" ++ u ++ "/" ++ p ++ "/public") false) := by
          simp [linkUser, hb, hx, hl]
        rw [hs]
        obtain ⟨h5, h6⟩ := runCmd_fs_stable _
          (Cmd.chown (u ++ ":" ++ u) ("/home/" ++ u ++ "/" ++ p ++ "/public") false) q e rfl h3
        exact ⟨h5, by rw [h6, h4, h2]⟩
      · have hs : linkUser w p u
            = runCmd (runChecked w (userDirCmds p u)).1
                (Cmd.lns ("/opt/" ++ p ++ "/public")
                  ("/home/" ++ u ++ "/" ++ p ++ "/public")) := by
          simp [linkUser, hb, hx, hl]
        rw [hs]
        exact ⟨h3, by rw [h4, h2]⟩
  · have hs : linkUser w p u = runChecked w (userDirCmds p u) := by
      simp [linkUser, hb]
    rw [hs]
    exact ⟨h1, h2⟩

theorem linkUsersLoop_fs_stable (us : List String) (w : World) (p q : String) (e : Entry)
    (h : alookup w.fs q = some e) :
    alookup (linkUsersLoop w p us).1.fs q = some e
    ∧ countKey (linkUsersLoop w p us).1.fs q = countKey w.fs q := by
  induction us generalizing w with
  | nil => exact ⟨h, rfl⟩
  | cons u rest ih =>
    obtain ⟨h1, h2⟩ := linkUser_fs_stable w p u q e h
    by_cases hb : (linkUser w p u).2 = true
    · have hs : linkUsersLoop w p (u :: rest) = linkUsersLoop (linkUser w p u).1 p rest := by
        simp [linkUsersLoop, hb]
      rw [hs]
      obtain ⟨h3, h4⟩ := ih (linkUser w p u).1 h1
      exact ⟨h3, by rw [h4, h2]⟩
    · have hs : linkUsersLoop w p (u :: rest) = ((linkUser w p u).1, false) := by
        simp [linkUsersLoop, hb]
      rw [hs]
      exact ⟨h1, h2⟩

/-- No run of the shared-project builder removes, retargets or
duplicates an existing filesystem entry, whatever the host does. -/
theorem create_shared_project_fs_stable (w : World) (p : String) (us : List String)
    (q : String) (e : Entry) (h : alookup w.fs q = some e) :
    alookup (create_shared_project w p us).1.fs q = some e
    ∧ countKey (create_shared_project w p us).1.fs q = countKey w.fs q := by
  have hroot : ∀ c ∈ rootCmds p, buildCmd c = true := by
    intro c hc
    simp only [rootCmds, List.mem_cons, List.not_mem_nil, or_false] at hc
    rcases hc with h1 | h1 | h1 | h1 | h1 | h1 <;> subst h1 <;> rfl
  obtain ⟨h1, h2⟩ := runChecked_fs_stable (rootCmds p) w q e hroot h
  by_cases hb : (runChecked w (rootCmds p)).2 = true
  · obtain ⟨h3, h4⟩ := linkUsersLoop_fs_stable us (runChecked w (rootCmds p)).1 p q e h1
    by_cases hl : (linkUsersLoop (runChecked w (rootCmds p)).1 p us).2 = true
    · have hs : create_shared_project w p us
          = linkUsersLoop (runChecked w (rootCmds p)).1 p us := by
        simp [create_shared_project, hb, hl]
      rw [hs]
      exact ⟨h3, by rw [h4, h2]⟩
    · have hs : (create_shared_project w p us).1
          = pushMsg (linkUsersLoop (runChecked w (rootCmds p)).1 p us).1
              Event.msgSharedError := by
        simp [create_shared_project, hb, hl]
      rw [hs]
      exact ⟨h3, by rw [show (pushMsg (linkUsersLoop (runChecked w (rootCmds p)).1 p us).1
        Event.msgSharedError).fs = (linkUsersLoop (runChecked w (rootCmds p)).1 p us).1.fs
        from rfl, h4, h2]⟩
  · have hs : (create_shared_project w p us).1
        = pushMsg (runChecked w (rootCmds p)).1 Event.msgSharedError := by
      simp [create_shared_project, hb]
    rw [hs]
    exact ⟨h1, by rw [show (pushMsg (runChecked w (rootCmds p)).1 Event.msgSharedError).fs
      = (runChecked w (rootCmds p)).1.fs from rfl, h2]⟩

/-- Claim C7. The "public" link is created at most once per developer
directory. (i) No run of `create_shared_project` removes, retargets or
duplicates any existing filesystem binding — in particular an existing
`public` link keeps its entry and its target, and its binding count is
unchanged, because `ln -s` is attempted only at an unbound path and
nothing in the builder unbinds anything. (ii) Consequently, running the
builder twice with the same developer set and project name leaves every
`public` link created (or found) by the first run in place, untouched
and unduplicated in the second run. (iii) Within a run, when an entry
already exists at the link path (`Path.exists`), link creation is
skipped and the loop body is exactly the directory commands followed by
the ownership re-assertion `chown` of the link path. -/
theorem c7_public_link_idempotent (w : World) (p : String) (devs : List String) :
    (∀ q e, alookup w.fs q = some e →
        alookup (create_shared_project w p devs).1.fs q = some e
        ∧ countKey (create_shared_project w p devs).1.fs q = countKey w.fs q)
    ∧ (∀ u e, alookup (create_shared_project w p devs).1.fs
          ("/home/" ++ u ++ "/" ++ p ++ "/public") = some e →
        alookup (create_shared_project (create_shared_project w p devs).1 p devs).1.fs
            ("/home/" ++ u ++ "/" ++ p ++ "/public") = some e
        ∧ countKey (create_shared_project (create_shared_project w p devs).1 p devs).1.fs
              ("/home/" ++ u ++ "/" ++ p ++ "/public")
            = countKey (create_shared_project w p devs).1.fs
                ("/home/" ++ u ++ "/" ++ p ++ "/public"))
    ∧ (∀ (w1 : World) (u : String),
        (runChecked w1 (userDirCmds p u)).2 = true →
        pathExists ((runChecked w1 (userDirCmds p u)).1.fs)
            ("/home/" ++ u ++ "/" ++ p ++ "/public") = true →
        linkUser w1 p u
          = runCmd (runChecked w1 (userDirCmds p u)).1
              (Cmd.chown (u ++ ":" ++ u) ("/home/" ++ u ++ "/" ++ p ++ "/public") false)) := by
  refine ⟨?_, ?_, ?_⟩
  · intro q e h
    exact create_shared_project_fs_stable w p devs q e h
  · intro u e h
    exact create_shared_project_fs_stable (create_shared_project w p devs).1 p devs
      ("/home/" ++ u ++ "/" ++ p ++ "/public") e h
  · intro w1 u h1 h2
    simp [linkUser, h1, h2]

/-- Witness for C7 at a concrete input: a build made the link, a second
identical build keeps the single symlink with the same target. -/
theorem c7_witness :
    (alookup (create_shared_project allOkWorld "webapp" ["dev1"]).1.fs
        "/home/dev1/webapp/public" = some (Entry.symlink "/opt/webapp/public"))
    ∧ (alookup (create_shared_project (create_shared_project allOkWorld "webapp" ["dev1"]).1
          "webapp" ["dev1"]).1.fs "/home/dev1/webapp/public"
        = some (Entry.symlink "/opt/webapp/public")
      ∧ countKey (create_shared_project (create_shared_project allOkWorld "webapp" ["dev1"]).1
            "webapp" ["dev1"]).1.fs "/home/dev1/webapp/public"
          = countKey (create_shared_project allOkWorld "webapp" ["dev1"]).1.fs
              "/home/dev1/webapp/public") :=
  ⟨by decide,
   (c7_public_link_idempotent allOkWorld "webapp" ["dev1"]).2.1 "dev1"
     (Entry.symlink "/opt/webapp/public") (by decide)⟩
